import Mathlib

/-!
Shallow embedding of the GPK PKCS15-init driver
(`src/pkcs15init/pkcs15-gpk.c`) and proofs about it.

Machine integers are modelled as `Nat` with explicit `% 256` where the C
code stores into an `unsigned char`.  Fallible C functions (returning a
negative `SC_ERROR_*` code) are modelled with `Except ScError`.  External
card operations (`sc_verify`, `sc_change_reference_data`, ...) are
modelled by oracle parameters supplying their outcomes, and the calls the
driver makes are reported as explicit event lists.
-/

/-- The `SC_ERROR_*` codes used by the driver. -/
inductive ScError where
  | InvalidArguments
  | NotSupported
  | ObjectNotValid
  | SecurityStatusNotSatisfied
  | TooManyObjects
  | BufferTooSmall
  | FileNotFound
  | CardFailure
deriving DecidableEq, Repr

/-- `SC_ALGORITHM_RSA` (value from opensc.h). -/
def SC_ALGORITHM_RSA : Nat := 0

/-- `SC_ALGORITHM_DSA` (value from opensc.h). -/
def SC_ALGORITHM_DSA : Nat := 1

/-- `GPK_MAX_PINS` from pkcs15-gpk.c. -/
def GPK_MAX_PINS : Nat := 8

/-- Fuel-driven byte-length helper: structural recursion so the kernel can
evaluate it (the fuel only bounds the recursion; it stops at `v = 0`). -/
def bnBytesAux : Nat → Nat → Nat
  | 0, _ => 0
  | fuel + 1, v => if v = 0 then 0 else 1 + bnBytesAux fuel (v / 256)

/-- `BN_num_bytes`: number of bytes in the big-endian magnitude of a
bignum (0 for the zero bignum), as consumed by the driver. -/
def BN_num_bytes (v : Nat) : Nat := bnBytesAux v v

/-- Fuel-driven bit-length helper, structural for kernel evaluation. -/
def bnBitsAux : Nat → Nat → Nat
  | 0, _ => 0
  | fuel + 1, v => if v = 0 then 0 else 1 + bnBitsAux fuel (v / 2)

/-- `BN_num_bits`: bit length of a bignum's magnitude (0 for zero). -/
def BN_num_bits (v : Nat) : Nat := bnBitsAux v v

/-- `BN_is_word`: the bignum equals the given word. -/
def BN_is_word (bn w : Nat) : Bool := bn = w

/-- `struct pkcomp`: one key component (tag byte, wire bytes, size). -/
structure pkcomp where
  tag : Nat
  data : List Nat
  size : Nat
deriving DecidableEq, Repr

/-- `struct pkpart`: ordered component list (the C fixed array of 7 plus
its `count` field is modelled as a list; `count = components.length`).
The C `size` field is written only by `gpk_compute_publen` /
`gpk_compute_privlen`, modelled below as pure functions returning it. -/
structure pkpart where
  components : List pkcomp
deriving DecidableEq, Repr

/-- `struct pkdata` (field `private` is a Lean keyword, renamed `priv`). -/
structure pkdata where
  algo : Nat
  usage : Nat
  public : pkpart
  priv : pkpart
  bits : Nat
  bytes : Nat
deriving DecidableEq, Repr

/-- `gpk_bn2bin`: render a bignum as exactly `size` little-endian bytes.
The C asserts `BN_num_bytes bn <= size`; under that assert this list of
low-to-high bytes is exactly what the C loop produces. -/
def gpk_bn2bin (bn : Nat) (size : Nat) : List Nat :=
  (List.range size).map fun i => bn / 256 ^ i % 256

/-- `gpk_add_bignum`: append a component; `size = 0` means "use the
bignum's natural byte length".  Wire form is the tag byte followed by the
little-endian bignum, and the stored `size` counts the tag byte too. -/
def gpk_add_bignum (part : pkpart) (tag : Nat) (bn : Nat) (size0 : Nat) : pkpart :=
  let size := if size0 = 0 then BN_num_bytes bn else size0
  ⟨part.components ++ [{ tag := tag % 256, data := tag % 256 :: gpk_bn2bin bn size,
                         size := size + 1 }]⟩

/-- `gpk_compute_publen`: `publen = 8 + Σ (2 + size)`, then
`part->size = (publen + 3) & ~3UL`, i.e. rounded up to a multiple of 4. -/
def gpk_compute_publen (part : pkpart) : Nat :=
  let publen := part.components.foldl (fun acc c => acc + (2 + c.size)) 8
  (publen + 3) / 4 * 4

/-- `gpk_compute_privlen`: `privlen = 8 + Σ ((3 + size + 7) & ~7UL)`. -/
def gpk_compute_privlen (part : pkpart) : Nat :=
  part.components.foldl (fun acc c => acc + (3 + c.size + 7) / 8 * 8) 8

/-- Spec-side rounding up to the next multiple of `m`. -/
def round_up (x m : Nat) : Nat := (x + m - 1) / m * m

/-- The fields of OpenSSL's `RSA` struct the driver reads; a `none`
models a NULL pointer. -/
structure RSA where
  n : Option Nat
  e : Option Nat
  d : Option Nat
  p : Option Nat
  q : Option Nat
  dmp1 : Option Nat
  dmq1 : Option Nat
  iqmp : Option Nat
deriving DecidableEq, Repr

/-- The fields of OpenSSL's `DSA` struct the driver reads. -/
structure DSA where
  p : Option Nat
  q : Option Nat
  g : Option Nat
  pub_key : Option Nat
  priv_key : Option Nat
deriving DecidableEq, Repr

/-- `gpk_encode_rsa_key`: build the `pkdata` for an RSA key.  The
`.getD 0` dereferences occur only on branches where the corresponding
guard established the pointer is non-NULL, mirroring the C. -/
def gpk_encode_rsa_key (rsa : RSA) (usage : Nat) : Except ScError pkdata :=
  if rsa.n.isNone || rsa.e.isNone then
    .error .InvalidArguments
  else if ¬ BN_is_word (rsa.e.getD 0) 65537 then
    .error .InvalidArguments
  else
    let n := rsa.n.getD 0
    let p0 : pkdata :=
      { algo := SC_ALGORITHM_RSA, usage := usage, public := ⟨[]⟩, priv := ⟨[]⟩,
        bits := BN_num_bits n, bytes := BN_num_bytes n }
    let p2 : pkdata :=
      { p0 with public := gpk_add_bignum (gpk_add_bignum p0.public 0x01 n 0)
                            0x07 (rsa.e.getD 0) 0 }
    if rsa.p.isNone || rsa.q.isNone || rsa.dmp1.isNone || rsa.dmq1.isNone
        || rsa.iqmp.isNone then
      match rsa.d with
      | none => .error .InvalidArguments
      | some d => .ok { p2 with priv := gpk_add_bignum p2.priv 0x04 d 0 }
    else if 5 * (p2.bytes / 2) < 256 then
      let K := p2.bytes / 2
      let crtbuf : List Nat :=
        0x05 :: (gpk_bn2bin (rsa.p.getD 0) K ++ gpk_bn2bin (rsa.q.getD 0) K
          ++ gpk_bn2bin (rsa.iqmp.getD 0) K ++ gpk_bn2bin (rsa.dmp1.getD 0) K
          ++ gpk_bn2bin (rsa.dmq1.getD 0) K)
      .ok { p2 with priv :=
        ⟨p2.priv.components ++ [{ tag := 0x05, data := crtbuf, size := 5 * K + 1 }]⟩ }
    else
      let pr1 := gpk_add_bignum p2.priv 0x51 (rsa.p.getD 0) (p2.bytes / 2)
      let pr2 := gpk_add_bignum pr1 0x52 (rsa.q.getD 0) (p2.bytes / 2)
      let pr3 := gpk_add_bignum pr2 0x53 (rsa.iqmp.getD 0) (p2.bytes / 2)
      let pr4 := gpk_add_bignum pr3 0x54 (rsa.dmp1.getD 0) (p2.bytes / 2)
      let pr5 := gpk_add_bignum pr4 0x55 (rsa.dmq1.getD 0) (p2.bytes / 2)
      .ok { p2 with priv := pr5 }

/-- `gpk_encode_dsa_key`.  Note the source (line 839) assigns
`p->algo = SC_ALGORITHM_RSA` here, for a DSA key. -/
def gpk_encode_dsa_key (dsa : DSA) (usage : Nat) : Except ScError pkdata :=
  if dsa.p.isNone || dsa.q.isNone || dsa.g.isNone || dsa.pub_key.isNone
      || dsa.priv_key.isNone then
    .error .InvalidArguments
  else
    let dp := dsa.p.getD 0
    let bytes0 := BN_num_bytes dp
    let norm : Except ScError (Nat × Nat) :=
      if bytes0 ≤ 64 then .ok (512, 64)
      else if bytes0 ≤ 128 then .ok (1024, 128)
      else .error .InvalidArguments
    match norm with
    | .error e => .error e
    | .ok (bits, bytes) =>
      let pub1 := gpk_add_bignum ⟨[]⟩ 0x09 dp 0
      let pub2 := gpk_add_bignum pub1 0x0a (dsa.q.getD 0) 0
      let pub3 := gpk_add_bignum pub2 0x0b (dsa.g.getD 0) 0
      let pub := gpk_add_bignum pub3 0x0c (dsa.pub_key.getD 0) 0
      let prv := gpk_add_bignum ⟨[]⟩ 0x0d (dsa.priv_key.getD 0) 0
      .ok { algo := SC_ALGORITHM_RSA, usage := usage, public := pub, priv := prv,
            bits := bits, bytes := bytes }

/-- ACL methods (`SC_AC_*`).  `UNKNOWN` also stands for the absent-entry
case, which the claims never exercise. -/
inductive AcMethod where
  | NONE
  | NEVER
  | CHV
  | TERM
  | PRO
  | AUT
  | UNKNOWN
deriving DecidableEq, Repr

/-- `struct sc_acl_entry` (one node of the per-operation list). -/
structure sc_acl_entry where
  method : AcMethod
  key_ref : Nat
deriving DecidableEq, Repr

/-- `gpk_pkfile_keybits`: size-class byte for the system record. -/
def gpk_pkfile_keybits (bits : Nat) : Except ScError Nat :=
  if bits = 512 then .ok 0x00
  else if bits = 768 then .ok 0x10
  else if bits = 1024 then .ok 0x11
  else .error .NotSupported

/-- `gpk_pkfile_keyalgo`: algorithm-id byte for the system record. -/
def gpk_pkfile_keyalgo (algo : Nat) : Except ScError Nat :=
  if algo = SC_ALGORITHM_RSA then .ok 0x00
  else if algo = SC_ALGORITHM_DSA then .ok 0x01
  else .error .NotSupported

/-- The PIN-protection scan of `gpk_pkfile_init_public` over the CRYPTO
ACL chain, threading `(npins, sysrec[2], sysrec[3])`.  Stores into
`sysrec` bytes are truncated `% 256` as in the C `u8` assignments. -/
def gpk_pin_protection : List sc_acl_entry → Nat → Nat → Nat →
    Except ScError (Nat × Nat)
  | [], _, s2, s3 => .ok (s2, s3)
  | a :: rest, npins, s2, s3 =>
    match a.method with
    | .NONE => gpk_pin_protection rest npins s2 s3
    | .NEVER => gpk_pin_protection rest npins s2 s3
    | .CHV =>
      if npins + 1 ≥ 2 then .error .NotSupported
      else gpk_pin_protection rest (npins + 1) ((s2 + 0x40) % 256)
        (((s3 >>> 4) ||| (a.key_ref <<< 4)) % 256)
    | _ => .error .NotSupported

/-- The system-record construction of `gpk_pkfile_init_public`
(lines 476-519): 7 bytes, last byte is the XOR fold of the first six
seeded with 0xFF. -/
def gpk_sysrec (algo bits : Nat) (crypto_acl : List sc_acl_entry) :
    Except ScError (List Nat) :=
  match gpk_pkfile_keybits bits with
  | .error e => .error e
  | .ok s1 =>
    match gpk_pkfile_keyalgo algo with
    | .error e => .error e
    | .ok s5 =>
      match gpk_pin_protection crypto_acl 0 0x00 0 with
      | .error e => .error e
      | .ok (s2, s3) =>
        let base : List Nat := [0, s1, s2, s3, 0, s5]
        .ok (base ++ [base.foldl Nat.xor 0xFF])

/-- The record write performed for the system record. -/
inductive PubWrite where
  | update (recnr : Nat) (data : List Nat)
  | append (data : List Nat)
deriving DecidableEq, Repr

/-- `gpk_pkfile_init_public` (lines 465-537): build the system record,
then reconcile with an existing record #1.  `rec1` models the
`sc_read_record(card, 1, ...)` outcome (`none` = read failed); `usage`
is accepted and ignored as in the C. -/
def gpk_pkfile_init_public (crypto_acl : List sc_acl_entry)
    (algo bits usage : Nat) (rec1 : Option (List Nat)) :
    Except ScError PubWrite :=
  match gpk_sysrec algo bits crypto_acl with
  | .error e => .error e
  | .ok sysrec =>
    match rec1 with
    | some buf =>
      if buf.length ≠ 7 ∨ buf.headD 1 ≠ 0 then .error .ObjectNotValid
      else .ok (.update 1 sysrec)
    | none => .ok (.append sysrec)

/-- Card interactions issued by `gpk_pkfile_update_private`:
`sc_verify(card, SC_AC_PRO, 1, keybuf, keysize)` and
`gpk_pkfile_load_private(card, file, data, len, datalen)`. -/
inductive PrivEvent where
  | verify (keybuf : List Nat)
  | load (data : List Nat) (len datalen : Nat)
deriving DecidableEq, Repr

/-- The per-component loop of `gpk_pkfile_update_private`
(lines 650-676), indexed by the loop counter `m`.  Outcomes of the card
calls come from the oracles `verifyR`/`loadR` (indexed by `m`); the calls
made are collected as events.  The working buffer is 256 bytes
(`u8 data[256]`); each iteration copies the component payload, appends
the XOR checksum (seed 0xFF, truncated to a byte by the `u8` store) and
zero-pads to the next multiple of 8. -/
def gpk_update_private_loop (keybuf : List Nat)
    (verifyR loadR : Nat → Except ScError Unit) :
    List pkcomp → Nat → Except ScError Unit × List PrivEvent
  | [], _ => (.ok (), [])
  | pe :: rest, m =>
    if pe.size + 8 > 256 then (.error .BufferTooSmall, [])
    else
      match verifyR m with
      | .error e => (.error e, [.verify keybuf])
      | .ok _ =>
        let payload := pe.data.take pe.size
        let cks := payload.foldl Nat.xor 0xFF
        let block := payload ++ (cks % 256) ::
          List.replicate ((8 - (pe.size + 1) % 8) % 8) 0
        match loadR m with
        | .error e => (.error e, [.verify keybuf, .load block pe.size block.length])
        | .ok _ =>
          let r := gpk_update_private_loop keybuf verifyR loadR rest (m + 1)
          (r.1, .verify keybuf :: .load block pe.size block.length :: r.2)

/-- `gpk_pkfile_update_private` (lines 626-678): `secret` is the outcome
of `sc_profile_get_secret` (`none` = no secure-messaging key in the
profile). -/
def gpk_pkfile_update_private (secret : Option (List Nat))
    (verifyR loadR : Nat → Except ScError Unit) (part : pkpart) :
    Except ScError Unit × List PrivEvent :=
  match secret with
  | none => (.error .SecurityStatusNotSatisfied, [])
  | some keybuf => gpk_update_private_loop keybuf verifyR loadR part.components 0

/-- Scan of an event list checking that every `load` event is immediately
preceded by a `verify` event; the flag records whether the previous event
was a `verify`. -/
def guardedLoadsAux : Bool → List PrivEvent → Bool
  | _, [] => true
  | prevVerify, e :: rest =>
    match e with
    | .verify _ => guardedLoadsAux true rest
    | .load _ _ _ => prevVerify && guardedLoadsAux false rest

/-- Every `load` event is immediately preceded by a `verify` event (and
in particular a leading `load` is rejected). -/
def guardedLoads (evs : List PrivEvent) : Bool := guardedLoadsAux false evs

/-- Recognizer for `load` events. -/
def PrivEvent.isLoad : PrivEvent → Bool
  | .load _ _ _ => true
  | _ => false

/-- `SC_AC_OP_*` file-operation ids (numeric values are irrelevant to the
claims; they act only as keys of the per-file ACL table). -/
def SC_AC_OP_UPDATE : Nat := 1

/-- `SC_AC_OP_WRITE`. -/
def SC_AC_OP_WRITE : Nat := 3

/-- `SC_AC_OP_LOCK`. -/
def SC_AC_OP_LOCK : Nat := 8

/-- `SC_AC_OP_CRYPTO`. -/
def SC_AC_OP_CRYPTO : Nat := 12

/-- `SC_AC_CHV` (credential kind passed to
`sc_change_reference_data`/`sc_verify`). -/
def SC_AC_CHV : Nat := 1

/-- The fields of `struct sc_file` the driver reads: declared size and
the per-operation ACL table (first entry per operation wins on lookup,
missing operations yield the `UNKNOWN` entry). -/
structure sc_file where
  size : Nat
  acls : List (Nat × sc_acl_entry)
deriving DecidableEq, Repr

/-- `sc_file_get_acl_entry`. -/
def sc_file_get_acl_entry (f : sc_file) (op : Nat) : sc_acl_entry :=
  (f.acls.lookup op).getD ⟨.UNKNOWN, 0⟩

/-- `sc_file_add_acl_entry`: the added entry takes effect for lookups of
that operation (modelled by prepending). -/
def sc_file_add_acl_entry (f : sc_file) (op : Nat) (method : AcMethod)
    (key_ref : Nat) : sc_file :=
  { f with acls := (op, ⟨method, key_ref⟩) :: f.acls }

/-- One 8-byte row of the PIN slot table (gpk_init_pinfile lines
166-183).  The row-role test is the source's `(i % 1) == 0` (line 167)
verbatim; byte 3 is the complemented XOR fold of the whole row (computed
while byte 3 is still 0), with `u8` stores truncated `% 256`. -/
def gpk_pin_row (pin_attempts puk_attempts npins i : Nat) : List Nat :=
  let blk : List Nat :=
    if i % 1 = 0 then
      [pin_attempts % 256, 0,
       if i + 1 < npins then (0x8 ||| (i + 1)) % 256 else 0, 0, 0, 0, 0, 0]
    else
      [puk_attempts % 256, 0, 0, 0, 0, 0, 0, 0]
  let cks := blk.foldl Nat.xor 0
  blk.set 3 (0xFF ^^^ cks % 256)

/-- The full PIN-file content written by `sc_write_binary`: `npins` rows
of 8 bytes each (`npins = pinfile->size / 8`). -/
def gpk_pinfile_buffer (pin_attempts puk_attempts npins : Nat) : List Nat :=
  ((List.range npins).map (gpk_pin_row pin_attempts puk_attempts npins)).flatten

/-- `gpk_init_pinfile` (lines 127-191).  `cardR` supplies the outcomes of
the card operations in program order: 0 = `sc_pkcs15init_create_file`,
1 = `sc_select_file`, 2 = `sc_write_binary`, 3 = `gpk_lock_pinfile`.
`sc_file_dup` is value copy: the working copy `pinfile` is modified and
returned, the caller's `file` is untouched.  On success the result is
the working copy and the written table. -/
def gpk_init_pinfile (profile_pin_attempts profile_puk_attempts : Nat)
    (file : sc_file) (cardR : Nat → Except ScError Unit) :
    Except ScError (sc_file × List Nat) :=
  let pin_attempts := if profile_pin_attempts = 0 then 7 else profile_pin_attempts
  let puk_attempts := if profile_puk_attempts = 0 then 3 else profile_puk_attempts
  let pinfile := file
  if (sc_file_get_acl_entry pinfile SC_AC_OP_WRITE).method ≠ AcMethod.NEVER then
    .error .InvalidArguments
  else
    let pinfile := sc_file_add_acl_entry pinfile SC_AC_OP_WRITE .NONE 0
    let pinfile :=
      if pinfile.size = 0 then { pinfile with size := GPK_MAX_PINS * 8 } else pinfile
    match cardR 0 with
    | .error e => .error e
    | .ok _ =>
      match cardR 1 with
      | .error e => .error e
      | .ok _ =>
        let npins := pinfile.size / 8
        let buffer := gpk_pinfile_buffer pin_attempts puk_attempts npins
        match cardR 2 with
        | .error e => .error e
        | .ok _ =>
          match cardR 3 with
          | .error e => .error e
          | .ok _ => .ok (pinfile, buffer)

/-- One `sc_change_reference_data` call. -/
structure CRDCall where
  kind : Nat
  ref : Nat
  old : List Nat
  new : List Nat
deriving DecidableEq, Repr

/-- `gpk_new_pin` (lines 230-276).  `hasPinfilePath` models
`sc_profile_get_path(profile, "pinfile", ...)` succeeding; `selectR` the
`sc_select_file` outcome; `crdR ref` the outcome of
`sc_change_reference_data` on reference `ref`.  Returns the credential
reference stored in `info->reference` and the calls made. -/
def gpk_new_pin (hasPinfilePath : Bool) (selectR : Except ScError Unit)
    (crdR : Nat → Except ScError Unit) (index : Nat)
    (pin : List Nat) (puk : Option (List Nat)) :
    Except ScError (Nat × List CRDCall) :=
  if ¬ hasPinfilePath then .error .InvalidArguments
  else
    match selectR with
    | .error e => .error e
    | .ok _ =>
      let index := index <<< 2
      if index ≥ GPK_MAX_PINS then .error .TooManyObjects
      else
        let pukv :=
          match puk with
          | none => pin
          | some pv => if pv.length = 0 then pin else pv
        let nulpin : List Nat := List.replicate 8 0
        let call1 : CRDCall := ⟨SC_AC_CHV, 0x8 ||| index, nulpin, pin⟩
        match crdR call1.ref with
        | .error e => .error e
        | .ok _ =>
          let call2 : CRDCall := ⟨SC_AC_CHV, 0x8 ||| (index + 1), nulpin, pukv⟩
          match crdR call2.ref with
          | .error e => .error e
          | .ok _ => .ok (0x8 ||| index, [call1, call2])

/- ------------------------------------------------------------------ -/
/- Helper lemmas (shared, not claim-specific)                          -/
/- ------------------------------------------------------------------ -/

theorem foldl_add_eq_add_sum (f : pkcomp → Nat) (l : List pkcomp) (a : Nat) :
    l.foldl (fun acc c => acc + f c) a = a + (l.map f).sum := by
  induction l generalizing a with
  | nil => simp
  | cons c l ih => simp [List.foldl_cons, ih, Nat.add_assoc]

theorem publen_as_sum (part : pkpart) :
    gpk_compute_publen part
      = ((8 + (part.components.map (fun c => 2 + c.size)).sum) + 3) / 4 * 4 := by
  simp [gpk_compute_publen, foldl_add_eq_add_sum]

theorem privlen_as_sum (part : pkpart) :
    gpk_compute_privlen part
      = 8 + (part.components.map (fun c => (3 + c.size + 7) / 8 * 8)).sum := by
  simp [gpk_compute_privlen, foldl_add_eq_add_sum]

/- ------------------------------------------------------------------ -/
/- Claim theorems                                                      -/
/- ------------------------------------------------------------------ -/

/-- C6: `gpk_compute_publen` is `round_up (8 + Σ (2 + size)) 4`,
`gpk_compute_privlen` is `8 + Σ round_up (3 + size) 8`; the private
length is monotone non-decreasing in every component's size, is a
multiple of 8, and is at least 8. -/
theorem gpk_compute_lengths_spec :
    (∀ part : pkpart,
        gpk_compute_publen part
          = round_up (8 + (part.components.map (fun c => 2 + c.size)).sum) 4)
    ∧ (∀ part : pkpart,
        gpk_compute_privlen part
          = 8 + (part.components.map (fun c => round_up (3 + c.size) 8)).sum)
    ∧ (∀ p q : pkpart,
        List.Forall₂ (fun c d => c.size ≤ d.size) p.components q.components →
        gpk_compute_privlen p ≤ gpk_compute_privlen q)
    ∧ (∀ part : pkpart,
        8 ∣ gpk_compute_privlen part ∧ 8 ≤ gpk_compute_privlen part) := by
  refine ⟨?_, ?_, ?_, ?_⟩
  · intro part
    rw [publen_as_sum, round_up]
    omega
  · intro part
    rw [privlen_as_sum]
    have hcong : ∀ c ∈ part.components,
        (3 + c.size + 7) / 8 * 8 = round_up (3 + c.size) 8 := by
      intro c _
      rw [round_up]
      omega
    rw [List.map_congr_left hcong]
  · rintro ⟨pc⟩ ⟨qc⟩ h
    rw [privlen_as_sum, privlen_as_sum]
    dsimp only at h ⊢
    refine Nat.add_le_add_left ?_ 8
    induction h with
    | nil => simp
    | cons hcd _ ih =>
      simp only [List.map_cons, List.sum_cons]
      refine Nat.add_le_add ?_ ih
      exact Nat.mul_le_mul_right 8 (Nat.div_le_div_right (by omega))
  · intro part
    rw [privlen_as_sum]
    constructor
    · refine Nat.dvd_add (dvd_refl 8) ?_
      induction part.components with
      | nil => simp
      | cons c l ih =>
        simp only [List.map_cons, List.sum_cons]
        exact Nat.dvd_add (dvd_mul_left 8 _) ih
    · exact Nat.le_add_right 8 _

/-- C6 witness: the spec equations and monotonicity evaluated on concrete
parts. -/
theorem gpk_compute_lengths_spec_witness :
    gpk_compute_publen ⟨[⟨1, [1, 9], 2⟩]⟩ = round_up (8 + (2 + 2)) 4
    ∧ gpk_compute_privlen ⟨[⟨1, [1, 9], 2⟩]⟩ = 8 + round_up (3 + 2) 8
    ∧ gpk_compute_privlen ⟨[⟨1, [1, 9], 2⟩]⟩ ≤ gpk_compute_privlen ⟨[⟨1, [1, 9, 9], 3⟩]⟩
    ∧ 8 ∣ gpk_compute_privlen ⟨[⟨1, [1, 9], 2⟩]⟩
    ∧ 8 ≤ gpk_compute_privlen ⟨[⟨1, [1, 9], 2⟩]⟩ := by
  refine ⟨?_, ?_, ?_, ?_, ?_⟩
  · have h := gpk_compute_lengths_spec.1 ⟨[⟨1, [1, 9], 2⟩]⟩
    simpa using h
  · have h := gpk_compute_lengths_spec.2.1 ⟨[⟨1, [1, 9], 2⟩]⟩
    simpa using h
  · exact gpk_compute_lengths_spec.2.2.1 ⟨[⟨1, [1, 9], 2⟩]⟩ ⟨[⟨1, [1, 9, 9], 3⟩]⟩
      (by simp)
  · exact (gpk_compute_lengths_spec.2.2.2 ⟨[⟨1, [1, 9], 2⟩]⟩).1
  · exact (gpk_compute_lengths_spec.2.2.2 ⟨[⟨1, [1, 9], 2⟩]⟩).2

/-- C3: for an RSA key with modulus present and public exponent 65537,
the private part follows the three-way priority: missing CRT parameter
means one tag-0x04 component holding d (its payload is the tag byte
followed by d's little-endian wire encoding), or `InvalidArguments` when
d is absent too; else one tag-0x05 component of size `5*(bytes/2)+1`
when `5*(bytes/2) < 256`; else five components tagged 0x51..0x55, each
of size `bytes/2 + 1`. -/
theorem gpk_encode_rsa_key_private_cases (rsa : RSA) (n usage : Nat)
    (hn : rsa.n = some n) (he : rsa.e = some 65537) :
    ((rsa.p.isNone || rsa.q.isNone || rsa.dmp1.isNone || rsa.dmq1.isNone
        || rsa.iqmp.isNone) = true →
      (rsa.d = none → gpk_encode_rsa_key rsa usage = .error .InvalidArguments)
      ∧ (∀ d, rsa.d = some d →
          (gpk_encode_rsa_key rsa usage).map
              (fun pd => pd.priv.components.map (fun c => (c.tag, c.data, c.size)))
            = .ok [(0x04, 0x04 :: gpk_bn2bin d (BN_num_bytes d),
                    BN_num_bytes d + 1)]))
    ∧ ((rsa.p.isNone || rsa.q.isNone || rsa.dmp1.isNone || rsa.dmq1.isNone
        || rsa.iqmp.isNone) = false →
      (5 * (BN_num_bytes n / 2) < 256 →
        (gpk_encode_rsa_key rsa usage).map
            (fun pd => pd.priv.components.map (fun c => (c.tag, c.size)))
          = .ok [(0x05, 5 * (BN_num_bytes n / 2) + 1)])
      ∧ (¬ 5 * (BN_num_bytes n / 2) < 256 →
        (gpk_encode_rsa_key rsa usage).map
            (fun pd => pd.priv.components.map (fun c => (c.tag, c.size)))
          = .ok [(0x51, BN_num_bytes n / 2 + 1), (0x52, BN_num_bytes n / 2 + 1),
                 (0x53, BN_num_bytes n / 2 + 1), (0x54, BN_num_bytes n / 2 + 1),
                 (0x55, BN_num_bytes n / 2 + 1)])) := by
  constructor
  · intro hmiss
    constructor
    · intro hd
      simp [gpk_encode_rsa_key, hn, he, hmiss, hd, BN_is_word]
    · intro d hd
      simp [gpk_encode_rsa_key, hn, he, hmiss, hd, BN_is_word, gpk_add_bignum,
        Except.map]
  · intro hall
    constructor
    · intro hlt
      simp [gpk_encode_rsa_key, hn, he, hall, hlt, BN_is_word, gpk_add_bignum,
        Except.map]
    · intro hge
      have hK : ¬ BN_num_bytes n / 2 = 0 := by omega
      simp [gpk_encode_rsa_key, hn, he, hall, hge, BN_is_word, gpk_add_bignum,
        Except.map, hK]

/-- C3 witness: concrete keys hitting the d-fallback and the packed-CRT
branches. -/
theorem gpk_encode_rsa_key_private_cases_witness :
    (gpk_encode_rsa_key ⟨some 3, some 65537, some 5, none, none, none, none, none⟩ 0).map
        (fun pd => pd.priv.components.map (fun c => (c.tag, c.data, c.size)))
      = .ok [(0x04, 0x04 :: gpk_bn2bin 5 (BN_num_bytes 5), BN_num_bytes 5 + 1)]
    ∧ (gpk_encode_rsa_key
          ⟨some 255, some 65537, none, some 3, some 3, some 3, some 3, some 3⟩ 0).map
        (fun pd => pd.priv.components.map (fun c => (c.tag, c.size)))
      = .ok [(0x05, 5 * (BN_num_bytes 255 / 2) + 1)] := by
  constructor
  · exact ((gpk_encode_rsa_key_private_cases
      ⟨some 3, some 65537, some 5, none, none, none, none, none⟩ 3 0 rfl rfl).1
      (by decide)).2 5 rfl
  · exact ((gpk_encode_rsa_key_private_cases
      ⟨some 255, some 65537, none, some 3, some 3, some 3, some 3, some 3⟩ 255 0
      rfl rfl).2 (by decide)).1 (by decide)

/-- C7: DSA encoding requires p, q, g, public and private values; the
normalized byte count is exactly 64 (raw ≤ 64) or exactly 128
(raw 65..128), and a raw modulus over 128 bytes fails
`InvalidArguments`. -/
theorem gpk_encode_dsa_key_normalization (dsa : DSA) (usage : Nat) :
    ((dsa.p.isNone || dsa.q.isNone || dsa.g.isNone || dsa.pub_key.isNone
        || dsa.priv_key.isNone) = true →
      gpk_encode_dsa_key dsa usage = .error .InvalidArguments)
    ∧ ((dsa.p.isNone || dsa.q.isNone || dsa.g.isNone || dsa.pub_key.isNone
        || dsa.priv_key.isNone) = false →
      (BN_num_bytes (dsa.p.getD 0) ≤ 64 →
        (gpk_encode_dsa_key dsa usage).map pkdata.bytes = .ok 64
        ∧ (gpk_encode_dsa_key dsa usage).map pkdata.bits = .ok 512)
      ∧ (64 < BN_num_bytes (dsa.p.getD 0) → BN_num_bytes (dsa.p.getD 0) ≤ 128 →
        (gpk_encode_dsa_key dsa usage).map pkdata.bytes = .ok 128
        ∧ (gpk_encode_dsa_key dsa usage).map pkdata.bits = .ok 1024)
      ∧ (128 < BN_num_bytes (dsa.p.getD 0) →
        gpk_encode_dsa_key dsa usage = .error .InvalidArguments)
      ∧ (∀ pd, gpk_encode_dsa_key dsa usage = .ok pd →
          pd.bytes = 64 ∨ pd.bytes = 128)) := by
  constructor
  · intro hmiss
    simp [gpk_encode_dsa_key, hmiss]
  · intro hall
    refine ⟨?_, ?_, ?_, ?_⟩
    · intro h64
      constructor <;> simp [gpk_encode_dsa_key, hall, h64, Except.map]
    · intro h64 h128
      have h64n : ¬ BN_num_bytes (dsa.p.getD 0) ≤ 64 := by omega
      constructor <;> simp [gpk_encode_dsa_key, hall, h128, h64n, Except.map]
    · intro h128
      have h64n : ¬ BN_num_bytes (dsa.p.getD 0) ≤ 64 := by omega
      have h128n : ¬ BN_num_bytes (dsa.p.getD 0) ≤ 128 := by omega
      simp [gpk_encode_dsa_key, hall, h64n, h128n]
    · intro pd hpd
      rcases le_or_lt (BN_num_bytes (dsa.p.getD 0)) 64 with h64 | h64
      · left
        have heq : (gpk_encode_dsa_key dsa usage).map pkdata.bytes = .ok 64 := by
          simp [gpk_encode_dsa_key, hall, h64, Except.map]
        rw [hpd] at heq
        simpa [Except.map] using heq
      · rcases le_or_lt (BN_num_bytes (dsa.p.getD 0)) 128 with h128 | h128
        · right
          have h64n : ¬ BN_num_bytes (dsa.p.getD 0) ≤ 64 := by omega
          have heq : (gpk_encode_dsa_key dsa usage).map pkdata.bytes = .ok 128 := by
            simp [gpk_encode_dsa_key, hall, h128, h64n, Except.map]
          rw [hpd] at heq
          simpa [Except.map] using heq
        · exfalso
          have h64n : ¬ BN_num_bytes (dsa.p.getD 0) ≤ 64 := by omega
          have h128n : ¬ BN_num_bytes (dsa.p.getD 0) ≤ 128 := by omega
          simp [gpk_encode_dsa_key, hall, h64n, h128n] at hpd

/-- C7 witness: a complete one-byte DSA key normalizes to 64 bytes /
512 bits, and a missing private value is rejected. -/
theorem gpk_encode_dsa_key_normalization_witness :
    ((gpk_encode_dsa_key ⟨some 3, some 5, some 7, some 9, some 11⟩ 0).map pkdata.bytes
        = .ok 64
      ∧ (gpk_encode_dsa_key ⟨some 3, some 5, some 7, some 9, some 11⟩ 0).map pkdata.bits
        = .ok 512)
    ∧ gpk_encode_dsa_key ⟨some 3, some 5, some 7, some 9, none⟩ 0
        = .error .InvalidArguments := by
  constructor
  · exact ((gpk_encode_dsa_key_normalization ⟨some 3, some 5, some 7, some 9, some 11⟩ 0).2
      (by decide)).1 (by decide)
  · exact (gpk_encode_dsa_key_normalization ⟨some 3, some 5, some 7, some 9, none⟩ 0).1
      (by decide)

/-- C8: the system record is 7 bytes; when record #1 is readable it must
be exactly 7 bytes with first byte zero (else `ObjectNotValid`) and the
system record is written by update-in-place of record 1; when no record
is readable the system record is appended. -/
theorem gpk_pkfile_init_public_record1 (crypto_acl : List sc_acl_entry)
    (algo bits usage : Nat) (s : List Nat)
    (hs : gpk_sysrec algo bits crypto_acl = .ok s) :
    s.length = 7
    ∧ (∀ buf, buf.length ≠ 7 ∨ buf.headD 1 ≠ 0 →
        gpk_pkfile_init_public crypto_acl algo bits usage (some buf)
          = .error .ObjectNotValid)
    ∧ (∀ buf, buf.length = 7 → buf.headD 1 = 0 →
        gpk_pkfile_init_public crypto_acl algo bits usage (some buf)
          = .ok (.update 1 s))
    ∧ gpk_pkfile_init_public crypto_acl algo bits usage none = .ok (.append s) := by
  refine ⟨?_, ?_, ?_, ?_⟩
  · unfold gpk_sysrec at hs
    split at hs
    · exact absurd hs (by simp)
    · split at hs
      · exact absurd hs (by simp)
      · split at hs
        · exact absurd hs (by simp)
        · rename_i s2s3 heq
          cases hs
          simp
  · intro buf hbad
    simp only [gpk_pkfile_init_public, hs]
    rw [if_pos hbad]
  · intro buf h7 h0
    simp only [gpk_pkfile_init_public, hs]
    rw [if_neg (by push_neg; exact ⟨h7, h0⟩)]
  · simp only [gpk_pkfile_init_public, hs]

/-- C8 witness: with a valid existing record #1 the write is an
update-in-place; with none it is an append. -/
theorem gpk_pkfile_init_public_record1_witness :
    gpk_sysrec 0 512 [] = .ok [0, 0, 0, 0, 0, 0, 0xFF]
    ∧ gpk_pkfile_init_public [] 0 512 0 (some [0, 9, 9, 9, 9, 9, 9])
        = .ok (.update 1 [0, 0, 0, 0, 0, 0, 0xFF])
    ∧ gpk_pkfile_init_public [] 0 512 0 (some [1, 2])
        = .error .ObjectNotValid
    ∧ gpk_pkfile_init_public [] 0 512 0 none
        = .ok (.append [0, 0, 0, 0, 0, 0, 0xFF]) := by
  refine ⟨rfl, ?_, ?_, ?_⟩
  · exact (gpk_pkfile_init_public_record1 [] 0 512 0 [0, 0, 0, 0, 0, 0, 0xFF]
      rfl).2.2.1 [0, 9, 9, 9, 9, 9, 9] rfl rfl
  · exact (gpk_pkfile_init_public_record1 [] 0 512 0 [0, 0, 0, 0, 0, 0, 0xFF]
      rfl).2.1 [1, 2] (by simp)
  · exact (gpk_pkfile_init_public_record1 [] 0 512 0 [0, 0, 0, 0, 0, 0, 0xFF]
      rfl).2.2.2

/-- C1 (code evaluation at the failing input): a complete DSA key is
encoded with `algo = SC_ALGORITHM_RSA` (source line 839), so the system
record built for it carries algorithm byte `sysrec[5] = 0x00`, not the
0x01 that `gpk_pkfile_keyalgo` would produce for `SC_ALGORITHM_DSA`. -/
theorem gpk_encode_dsa_key_sysrec_algo_byte :
    (gpk_encode_dsa_key ⟨some 3, some 5, some 7, some 9, some 11⟩ 0).map pkdata.algo
      = .ok SC_ALGORITHM_RSA
    ∧ ((gpk_encode_dsa_key ⟨some 3, some 5, some 7, some 9, some 11⟩ 0).bind
        fun pd => (gpk_sysrec pd.algo pd.bits []).map fun s => s.getD 5 0xFF)
      = .ok 0x00
    ∧ gpk_pkfile_keyalgo SC_ALGORITHM_DSA = .ok 0x01 := by
  refine ⟨rfl, rfl, rfl⟩

theorem loop_guarded (kb : List Nat) (vR lR : Nat → Except ScError Unit) :
    ∀ comps m, guardedLoads (gpk_update_private_loop kb vR lR comps m).2 = true := by
  intro comps
  induction comps with
  | nil => intro m; rfl
  | cons pe rest ih =>
    intro m
    unfold gpk_update_private_loop
    split
    · rfl
    · cases hv : vR m with
      | error e => simp [guardedLoads, guardedLoadsAux]
      | ok u =>
        cases hl : lR m with
        | error e => simp [guardedLoads, guardedLoadsAux]
        | ok u2 =>
          have h := ih (m + 1)
          simpa [guardedLoads, guardedLoadsAux] using h

/-- C4: without an obtainable secure-messaging secret the whole step
fails `SecurityStatusNotSatisfied` with no card call at all; and in every
run, each load-private-block call is immediately preceded by a verify of
the secure-messaging secret in the same iteration. -/
theorem gpk_update_private_secure_messaging :
    (∀ verifyR loadR part,
      gpk_pkfile_update_private none verifyR loadR part
        = (.error .SecurityStatusNotSatisfied, []))
    ∧ (∀ secret verifyR loadR part,
      guardedLoads (gpk_pkfile_update_private secret verifyR loadR part).2 = true) := by
  constructor
  · intro verifyR loadR part
    rfl
  · intro secret verifyR loadR part
    cases secret with
    | none => rfl
    | some kb => exact loop_guarded kb verifyR loadR part.components 0

theorem loop_load_shape (kb : List Nat) (vR lR : Nat → Except ScError Unit) :
    ∀ comps m, (∀ pe ∈ comps, pe.data.length = pe.size) →
    ∀ b s dl, PrivEvent.load b s dl ∈ (gpk_update_private_loop kb vR lR comps m).2 →
    ∃ pe ∈ comps, s = pe.size
      ∧ b = pe.data ++ (pe.data.foldl Nat.xor 0xFF % 256) ::
          List.replicate ((8 - (pe.size + 1) % 8) % 8) 0
      ∧ dl = b.length ∧ b.length = round_up (pe.size + 1) 8 := by
  intro comps
  induction comps with
  | nil =>
    intro m hlen b s dl hmem
    simp [gpk_update_private_loop] at hmem
  | cons pe rest ih =>
    intro m hlen b s dl hmem
    have hpe : pe.data.length = pe.size := hlen pe (List.mem_cons_self pe rest)
    have htake : pe.data.take pe.size = pe.data :=
      List.take_of_length_le (le_of_eq hpe)
    have hblk : pe.data.take pe.size
        ++ ((pe.data.take pe.size).foldl Nat.xor 0xFF % 256) ::
          List.replicate ((8 - (pe.size + 1) % 8) % 8) 0
        = pe.data ++ (pe.data.foldl Nat.xor 0xFF % 256) ::
          List.replicate ((8 - (pe.size + 1) % 8) % 8) 0 := by
      rw [htake]
    have hlength : (pe.data ++ (pe.data.foldl Nat.xor 0xFF % 256) ::
          List.replicate ((8 - (pe.size + 1) % 8) % 8) 0).length
        = round_up (pe.size + 1) 8 := by
      simp only [List.length_append, List.length_cons, List.length_replicate, hpe,
        round_up]
      omega
    unfold gpk_update_private_loop at hmem
    split at hmem
    · simp at hmem
    · cases hv : vR m with
      | error e =>
        rw [hv] at hmem
        simp at hmem
      | ok u =>
        rw [hv] at hmem
        cases hl : lR m with
        | error e2 =>
          rw [hl] at hmem
          simp only [List.mem_cons, List.mem_singleton] at hmem
          rcases hmem with h1 | h2 | h3
          · cases h1
          · cases h2
            refine ⟨pe, List.mem_cons_self pe rest, rfl, hblk.symm ▸ rfl, ?_, ?_⟩
            · rw [hblk]
            · rw [hblk, hlength]
          · cases h3
        | ok u2 =>
          rw [hl] at hmem
          simp only [List.mem_cons] at hmem
          rcases hmem with h1 | h2 | h3
          · cases h1
          · cases h2
            refine ⟨pe, List.mem_cons_self pe rest, rfl, hblk.symm ▸ rfl, ?_, ?_⟩
            · rw [hblk]
            · rw [hblk, hlength]
          · obtain ⟨pe2, hpe2, hrest⟩ :=
              ih (m + 1) (fun c hc => hlen c (List.mem_cons_of_mem pe hc)) b s dl h3
            exact ⟨pe2, List.mem_cons_of_mem pe hpe2, hrest⟩

theorem loop_buffer_too_small (kb : List Nat) (vR lR : Nat → Except ScError Unit)
    (hvR : ∀ k, vR k = .ok ()) (hlR : ∀ k, lR k = .ok ()) :
    ∀ comps m, (∃ pe ∈ comps, pe.size + 8 > 256) →
      (gpk_update_private_loop kb vR lR comps m).1 = .error .BufferTooSmall := by
  intro comps
  induction comps with
  | nil =>
    intro m hbig
    simp at hbig
  | cons pe rest ih =>
    intro m hbig
    by_cases hfit : pe.size + 8 > 256
    · unfold gpk_update_private_loop
      rw [if_pos hfit]
    · unfold gpk_update_private_loop
      rw [if_neg hfit, hvR m, hlR m]
      simp only []
      refine ih (m + 1) ?_
      obtain ⟨pe2, hpe2, hbig2⟩ := hbig
      rcases List.mem_cons.mp hpe2 with heq | hmem
      · exact absurd (heq ▸ hbig2) hfit
      · exact ⟨pe2, hmem, hbig2⟩

theorem loop_verify_abort (kb : List Nat) (vR lR : Nat → Except ScError Unit) :
    ∀ comps m j e, (∀ pe ∈ comps, pe.size + 8 ≤ 256) →
      j < comps.length →
      (∀ k, k < j → vR (m + k) = .ok () ∧ lR (m + k) = .ok ()) →
      vR (m + j) = .error e →
      (gpk_update_private_loop kb vR lR comps m).1 = .error e
      ∧ (gpk_update_private_loop kb vR lR comps m).2.length = 2 * j + 1 := by
  intro comps
  induction comps with
  | nil =>
    intro m j e _ hj _ _
    exact absurd hj (by simp)
  | cons pe rest ih =>
    intro m j e hfit hj hok hv
    have hpe : ¬ pe.size + 8 > 256 :=
      not_lt.mpr (hfit pe (List.mem_cons_self pe rest))
    unfold gpk_update_private_loop
    rw [if_neg hpe]
    cases j with
    | zero =>
      have hv0 : vR m = .error e := by simpa using hv
      rw [hv0]
      exact ⟨rfl, rfl⟩
    | succ j2 =>
      have hv0 : vR m = .ok () := by
        have h := (hok 0 (Nat.succ_pos j2)).1
        simpa using h
      have hl0 : lR m = .ok () := by
        have h := (hok 0 (Nat.succ_pos j2)).2
        simpa using h
      rw [hv0, hl0]
      simp only []
      have hrec := ih (m + 1) j2 e
        (fun c hc => hfit c (List.mem_cons_of_mem pe hc))
        (by simpa using Nat.lt_of_succ_lt_succ hj)
        (fun k hk => by
          have h := hok (k + 1) (Nat.succ_lt_succ hk)
          constructor
          · have h1 := h.1
            rwa [show m + (k + 1) = m + 1 + k by omega] at h1
          · have h2 := h.2
            rwa [show m + (k + 1) = m + 1 + k by omega] at h2)
        (by rwa [show m + (j2 + 1) = m + 1 + j2 by omega] at hv)
      refine ⟨hrec.1, ?_⟩
      simp only [List.length_cons, hrec.2]
      omega

theorem loop_load_abort (kb : List Nat) (vR lR : Nat → Except ScError Unit) :
    ∀ comps m j e, (∀ pe ∈ comps, pe.size + 8 ≤ 256) →
      j < comps.length →
      (∀ k, k < j → vR (m + k) = .ok () ∧ lR (m + k) = .ok ()) →
      vR (m + j) = .ok () → lR (m + j) = .error e →
      (gpk_update_private_loop kb vR lR comps m).1 = .error e
      ∧ (gpk_update_private_loop kb vR lR comps m).2.length = 2 * j + 2 := by
  intro comps
  induction comps with
  | nil =>
    intro m j e _ hj _ _ _
    exact absurd hj (by simp)
  | cons pe rest ih =>
    intro m j e hfit hj hok hv hl
    have hpe : ¬ pe.size + 8 > 256 :=
      not_lt.mpr (hfit pe (List.mem_cons_self pe rest))
    unfold gpk_update_private_loop
    rw [if_neg hpe]
    cases j with
    | zero =>
      have hv0 : vR m = .ok () := by simpa using hv
      have hl0 : lR m = .error e := by simpa using hl
      rw [hv0, hl0]
      exact ⟨rfl, rfl⟩
    | succ j2 =>
      have hv0 : vR m = .ok () := by
        have h := (hok 0 (Nat.succ_pos j2)).1
        simpa using h
      have hl0 : lR m = .ok () := by
        have h := (hok 0 (Nat.succ_pos j2)).2
        simpa using h
      rw [hv0, hl0]
      simp only []
      have hrec := ih (m + 1) j2 e
        (fun c hc => hfit c (List.mem_cons_of_mem pe hc))
        (by simpa using Nat.lt_of_succ_lt_succ hj)
        (fun k hk => by
          have h := hok (k + 1) (Nat.succ_lt_succ hk)
          constructor
          · have h1 := h.1
            rwa [show m + (k + 1) = m + 1 + k by omega] at h1
          · have h2 := h.2
            rwa [show m + (k + 1) = m + 1 + k by omega] at h2)
        (by rwa [show m + (j2 + 1) = m + 1 + j2 by omega] at hv)
        (by rwa [show m + (j2 + 1) = m + 1 + j2 by omega] at hl)
      refine ⟨hrec.1, ?_⟩
      simp only [List.length_cons, hrec.2]
      omega

/-- C5: every block handed to the load-private primitive is the payload
followed by one checksum byte (XOR fold with seed 0xFF), zero-padded so
its total length is `round_up(size+1, 8)`; a component with
`size + 8 > 256` fails `BufferTooSmall`; and the first failing verify or
load aborts the remaining components and returns that first error (the
event count shows no later component is touched). -/
theorem gpk_update_private_block_format :
    (∀ kb vR lR (part : pkpart),
      (∀ pe ∈ part.components, pe.data.length = pe.size) →
      ∀ b s dl,
        PrivEvent.load b s dl ∈ (gpk_pkfile_update_private (some kb) vR lR part).2 →
        ∃ pe ∈ part.components, s = pe.size
          ∧ b = pe.data ++ (pe.data.foldl Nat.xor 0xFF % 256) ::
              List.replicate ((8 - (pe.size + 1) % 8) % 8) 0
          ∧ dl = b.length ∧ b.length = round_up (pe.size + 1) 8)
    ∧ (∀ kb vR lR (part : pkpart),
      (∀ k, vR k = .ok ()) → (∀ k, lR k = .ok ()) →
      (∃ pe ∈ part.components, pe.size + 8 > 256) →
      (gpk_pkfile_update_private (some kb) vR lR part).1 = .error .BufferTooSmall)
    ∧ (∀ kb vR lR (part : pkpart) j e,
      (∀ pe ∈ part.components, pe.size + 8 ≤ 256) →
      j < part.components.length →
      (∀ k, k < j → vR k = .ok () ∧ lR k = .ok ()) →
      vR j = .error e →
      (gpk_pkfile_update_private (some kb) vR lR part).1 = .error e
      ∧ (gpk_pkfile_update_private (some kb) vR lR part).2.length = 2 * j + 1)
    ∧ (∀ kb vR lR (part : pkpart) j e,
      (∀ pe ∈ part.components, pe.size + 8 ≤ 256) →
      j < part.components.length →
      (∀ k, k < j → vR k = .ok () ∧ lR k = .ok ()) →
      vR j = .ok () → lR j = .error e →
      (gpk_pkfile_update_private (some kb) vR lR part).1 = .error e
      ∧ (gpk_pkfile_update_private (some kb) vR lR part).2.length = 2 * j + 2) := by
  refine ⟨?_, ?_, ?_, ?_⟩
  · intro kb vR lR part hlen b s dl hmem
    exact loop_load_shape kb vR lR part.components 0 hlen b s dl hmem
  · intro kb vR lR part hvR hlR hbig
    exact loop_buffer_too_small kb vR lR hvR hlR part.components 0 hbig
  · intro kb vR lR part j e hfit hj hok hv
    exact loop_verify_abort kb vR lR part.components 0 j e hfit hj
      (fun k hk => by simpa using hok k hk) (by simpa using hv)
  · intro kb vR lR part j e hfit hj hok hv hl
    exact loop_load_abort kb vR lR part.components 0 j e hfit hj
      (fun k hk => by simpa using hok k hk) (by simpa using hv) (by simpa using hl)

/-- C5 witness: concrete runs exercising the block format, the
`BufferTooSmall` rejection, and both abort paths. -/
theorem gpk_update_private_block_format_witness :
    (∃ pe ∈ (pkpart.mk [⟨0x04, [9, 9], 2⟩]).components, 2 = pe.size
      ∧ [9, 9, 255, 0, 0, 0, 0, 0]
          = pe.data ++ (pe.data.foldl Nat.xor 0xFF % 256) ::
              List.replicate ((8 - (pe.size + 1) % 8) % 8) 0
      ∧ 8 = ([9, 9, 255, 0, 0, 0, 0, 0] : List Nat).length
      ∧ ([9, 9, 255, 0, 0, 0, 0, 0] : List Nat).length = round_up (pe.size + 1) 8)
    ∧ (gpk_pkfile_update_private (some [1]) (fun _ => .ok ()) (fun _ => .ok ())
        ⟨[⟨0x04, List.replicate 249 1, 249⟩]⟩).1 = .error .BufferTooSmall
    ∧ ((gpk_pkfile_update_private (some [1]) (fun _ => .error .CardFailure)
          (fun _ => .ok ()) ⟨[⟨0x04, [9, 9], 2⟩]⟩).1 = .error .CardFailure
      ∧ (gpk_pkfile_update_private (some [1]) (fun _ => .error .CardFailure)
          (fun _ => .ok ()) ⟨[⟨0x04, [9, 9], 2⟩]⟩).2.length = 2 * 0 + 1)
    ∧ ((gpk_pkfile_update_private (some [1]) (fun _ => .ok ())
          (fun _ => .error .CardFailure) ⟨[⟨0x04, [9, 9], 2⟩]⟩).1 = .error .CardFailure
      ∧ (gpk_pkfile_update_private (some [1]) (fun _ => .ok ())
          (fun _ => .error .CardFailure) ⟨[⟨0x04, [9, 9], 2⟩]⟩).2.length = 2 * 0 + 2) := by
  refine ⟨?_, ?_, ?_, ?_⟩
  · exact gpk_update_private_block_format.1 [1] (fun _ => .ok ()) (fun _ => .ok ())
      ⟨[⟨0x04, [9, 9], 2⟩]⟩ (by decide) [9, 9, 255, 0, 0, 0, 0, 0] 2 8 (by decide)
  · exact gpk_update_private_block_format.2.1 [1] (fun _ => .ok ()) (fun _ => .ok ())
      ⟨[⟨0x04, List.replicate 249 1, 249⟩]⟩ (fun _ => rfl) (fun _ => rfl) (by decide)
  · exact gpk_update_private_block_format.2.2.1 [1] (fun _ => .error .CardFailure)
      (fun _ => .ok ()) ⟨[⟨0x04, [9, 9], 2⟩]⟩ 0 .CardFailure (by decide) (by decide)
      (fun k hk => absurd hk (Nat.not_lt_zero k)) rfl
  · exact gpk_update_private_block_format.2.2.2 [1] (fun _ => .ok ())
      (fun _ => .error .CardFailure) ⟨[⟨0x04, [9, 9], 2⟩]⟩ 0 .CardFailure (by decide)
      (by decide) (fun k hk => absurd hk (Nat.not_lt_zero k)) rfl rfl

/-- C2 (code evaluation at the failing input): with PIN retry count 7,
PUK retry count 3 and an 8-slot PIN file, the written table's row 1 (an
odd index, so per the spec a PUK row) is `[7, 0, 10, 242, 0, 0, 0, 0]`:
byte 0 is the PIN retry count 7 (not the PUK retry count 3) and byte 2
is the unlock pointer `0x8 | 2 = 10` (not absent), because the source's
row-role test `(i % 1) == 0` (line 167) is true for every `i`. -/
theorem gpk_init_pinfile_all_rows_are_pin_rows :
    (gpk_init_pinfile 7 3 ⟨64, [(SC_AC_OP_WRITE, ⟨.NEVER, 0⟩)]⟩
        (fun _ => .ok ())).map
        (fun r => ((r.2.drop 8).take 8, r.2.length))
      = .ok ([7, 0, 10, 242, 0, 0, 0, 0], 64) := by rfl

/-- C9: `gpk_init_pinfile` fails `InvalidArguments` whenever the
template's WRITE ACL is not NEVER, for every possible card behavior (so
before any card operation); when the WRITE ACL is NEVER, the working
copy it returns has WRITE ACL NONE while every other operation's ACL is
unchanged (the caller's own file, passed by value, is never modified). -/
theorem gpk_init_pinfile_write_acl_guard (pa pk : Nat) (file : sc_file) :
    ((sc_file_get_acl_entry file SC_AC_OP_WRITE).method ≠ AcMethod.NEVER →
      ∀ cardR, gpk_init_pinfile pa pk file cardR = .error .InvalidArguments)
    ∧ ((sc_file_get_acl_entry file SC_AC_OP_WRITE).method = AcMethod.NEVER →
      ∀ cardR res, gpk_init_pinfile pa pk file cardR = .ok res →
        (sc_file_get_acl_entry res.1 SC_AC_OP_WRITE).method = AcMethod.NONE
        ∧ (∀ op, op ≠ SC_AC_OP_WRITE →
            sc_file_get_acl_entry res.1 op = sc_file_get_acl_entry file op)) := by
  constructor
  · intro h cardR
    simp only [gpk_init_pinfile]
    rw [if_pos h]
  · intro h cardR res hres
    simp only [gpk_init_pinfile] at hres
    rw [if_neg (by simp [h])] at hres
    cases h0 : cardR 0 with
    | error e => rw [h0] at hres; cases hres
    | ok u =>
      rw [h0] at hres
      cases h1 : cardR 1 with
      | error e => rw [h1] at hres; cases hres
      | ok u1 =>
        rw [h1] at hres
        cases h2 : cardR 2 with
        | error e => rw [h2] at hres; cases hres
        | ok u2 =>
          rw [h2] at hres
          cases h3 : cardR 3 with
          | error e => rw [h3] at hres; cases hres
          | ok u3 =>
            rw [h3] at hres
            injection hres with hres2
            subst hres2
            have hw : ∀ sz : Nat,
                (sc_file_get_acl_entry
                  ⟨sz, (SC_AC_OP_WRITE, ⟨AcMethod.NONE, 0⟩) :: file.acls⟩
                  SC_AC_OP_WRITE).method = AcMethod.NONE := by
              intro sz
              simp [sc_file_get_acl_entry, List.lookup]
            have hother : ∀ (sz op : Nat), op ≠ SC_AC_OP_WRITE →
                sc_file_get_acl_entry
                  ⟨sz, (SC_AC_OP_WRITE, ⟨AcMethod.NONE, 0⟩) :: file.acls⟩ op
                  = sc_file_get_acl_entry file op := by
              intro sz op hop
              have hbeq : (op == SC_AC_OP_WRITE) = false :=
                beq_eq_false_iff_ne.mpr hop
              simp [sc_file_get_acl_entry, List.lookup, hbeq]
            by_cases hsz : file.size = 0
            · constructor
              · simpa [sc_file_add_acl_entry, hsz] using hw (GPK_MAX_PINS * 8)
              · intro op hop
                simpa [sc_file_add_acl_entry, hsz] using
                  hother (GPK_MAX_PINS * 8) op hop
            · constructor
              · simpa [sc_file_add_acl_entry, hsz] using hw file.size
              · intro op hop
                simpa [sc_file_add_acl_entry, hsz] using hother file.size op hop

/-- C9 witness: a template with WRITE ACL CHV is rejected regardless of
the card; with WRITE ACL NEVER the working copy comes back with WRITE
ACL NONE and the UPDATE ACL untouched. -/
theorem gpk_init_pinfile_write_acl_guard_witness :
    gpk_init_pinfile 7 3 ⟨8, [(SC_AC_OP_WRITE, ⟨.CHV, 1⟩)]⟩ (fun _ => .ok ())
      = .error .InvalidArguments
    ∧ ((sc_file_get_acl_entry
          (⟨8, [(SC_AC_OP_WRITE, ⟨.NONE, 0⟩), (SC_AC_OP_WRITE, ⟨.NEVER, 0⟩),
                (SC_AC_OP_UPDATE, ⟨.CHV, 2⟩)]⟩ : sc_file)
          SC_AC_OP_WRITE).method = AcMethod.NONE
      ∧ sc_file_get_acl_entry
          (⟨8, [(SC_AC_OP_WRITE, ⟨.NONE, 0⟩), (SC_AC_OP_WRITE, ⟨.NEVER, 0⟩),
                (SC_AC_OP_UPDATE, ⟨.CHV, 2⟩)]⟩ : sc_file)
          SC_AC_OP_UPDATE
        = sc_file_get_acl_entry
            (⟨8, [(SC_AC_OP_WRITE, ⟨.NEVER, 0⟩), (SC_AC_OP_UPDATE, ⟨.CHV, 2⟩)]⟩ : sc_file)
            SC_AC_OP_UPDATE) := by
  constructor
  · exact (gpk_init_pinfile_write_acl_guard 7 3
      ⟨8, [(SC_AC_OP_WRITE, ⟨.CHV, 1⟩)]⟩).1 (by decide) (fun _ => .ok ())
  · have h := (gpk_init_pinfile_write_acl_guard 7 3
      ⟨8, [(SC_AC_OP_WRITE, ⟨.NEVER, 0⟩), (SC_AC_OP_UPDATE, ⟨.CHV, 2⟩)]⟩).2
      (by decide) (fun _ => .ok ())
      (⟨8, [(SC_AC_OP_WRITE, ⟨.NONE, 0⟩), (SC_AC_OP_WRITE, ⟨.NEVER, 0⟩),
            (SC_AC_OP_UPDATE, ⟨.CHV, 2⟩)]⟩, [7, 0, 0, 248, 0, 0, 0, 0]) rfl
    exact ⟨h.1, h.2 SC_AC_OP_UPDATE (by decide)⟩

/-- C10: when the caller supplies no PUK (null or zero length), the PIN
value is used for the PUK slot as well; both slots of the pair are
transitioned from the all-zero default credential, and the returned
credential reference is `0x8 | (index << 2)`. -/
theorem gpk_new_pin_default_puk (index : Nat) (pin : List Nat)
    (puk : Option (List Nat)) (crdR : Nat → Except ScError Unit)
    (hidx : index <<< 2 < GPK_MAX_PINS)
    (hpuk : puk = none ∨ puk = some [])
    (hcrd : ∀ r, crdR r = .ok ()) :
    gpk_new_pin true (.ok ()) crdR index pin puk
      = .ok (0x8 ||| (index <<< 2),
          [⟨SC_AC_CHV, 0x8 ||| (index <<< 2), List.replicate 8 0, pin⟩,
           ⟨SC_AC_CHV, 0x8 ||| ((index <<< 2) + 1), List.replicate 8 0, pin⟩]) := by
  have hnot : ¬ index <<< 2 ≥ GPK_MAX_PINS := not_le.mpr hidx
  rcases hpuk with h | h <;> simp [gpk_new_pin, h, hnot, hcrd]

/-- C10 witness: storing PIN pair index 1 with no PUK issues the two
change-reference-data calls from the all-zero credential with the PIN as
both new values, and returns reference `0x8 | 4 = 12`. -/
theorem gpk_new_pin_default_puk_witness :
    gpk_new_pin true (.ok ()) (fun _ => .ok ()) 1 [1, 2, 3, 4, 5, 6, 7, 8] none
      = .ok (0x8 ||| (1 <<< 2),
          [⟨SC_AC_CHV, 0x8 ||| (1 <<< 2), List.replicate 8 0,
            [1, 2, 3, 4, 5, 6, 7, 8]⟩,
           ⟨SC_AC_CHV, 0x8 ||| ((1 <<< 2) + 1), List.replicate 8 0,
            [1, 2, 3, 4, 5, 6, 7, 8]⟩]) :=
  gpk_new_pin_default_puk 1 [1, 2, 3, 4, 5, 6, 7, 8] none (fun _ => .ok ())
    (by decide) (Or.inl rfl) (fun _ => rfl)
